import Mathlib

/-!
Verification of the LoadBalancerRust core against its specification.

The Rust sources are shallowly embedded:
* `src/balancer/algorithms/round_robin.rs` — the `RoundRobin` selector
  (round-robin with per-host cooldown).
* `src/balancer/client.rs` — the `TcpClient` tunnel state machine.
* `src/balancer/balancer.rs` — the per-worker token allocator.

Machine integers are modelled as `Nat`; `Instant` is modelled as an abstract
`Nat` time passed to every operation that calls `Instant::now()` (one value
per call, as the source reads the clock).  Socket handles carry no data and
are modelled as `Option Unit` (presence only); all socket I/O results are
supplied by oracle arguments, one per fallible call site, so that each
control-flow path of the source is represented.
-/

namespace LB

/-- A resolved socket address (`SocketAddr`), compared by full address. -/
abbrev Addr := Nat

/-- State of the `RoundRobin` selector (round_robin.rs, struct `RoundRobin`):
cursor, host count, host list, and the cooldown table as a vector of
`(endpoint, expiry_instant)` pairs. -/
structure RoundRobin where
  current_host : Nat
  max_host : Nat
  hosts : List Addr
  cooldowns : List (Addr × Nat)
deriving DecidableEq, Repr

/-- Constant `RoundRobin::TARGET_DOWN_COOLDOWN` (30 seconds), in abstract time units. -/
def TARGET_DOWN_COOLDOWN : Nat := 30

/-- Constructor `RoundRobin::new`: cursor 0, `max_host` = host count, empty cooldowns. -/
def RoundRobin.new (hosts : List Addr) : RoundRobin :=
  { current_host := 0, max_host := hosts.length, hosts := hosts, cooldowns := [] }

/-- Method `get_host_cooldown_index`: index of the first cooldown entry for `addr`,
`none` for the Rust `-1`. -/
def get_host_cooldown_index (addr : Addr) : List (Addr × Nat) → Option Nat
  | [] => none
  | p :: rest =>
    if p.1 = addr then some 0 else (get_host_cooldown_index addr rest).map (· + 1)

/-- Method `increment_host_counter`: advance the cursor, wrapping to 0 at `max_host`. -/
def increment_host_counter (s : RoundRobin) : RoundRobin :=
  if s.current_host + 1 ≥ s.max_host then { s with current_host := 0 }
  else { s with current_host := s.current_host + 1 }

/-- The `loop` body of `get_next_host`, with fuel (the source loop performs at
most `max_host` iterations: every iteration either breaks or, before any
`continue`, strictly approaches the `cycle_reached` exit).  Out-of-fuel
returns the current candidate; `get_next_host` supplies enough fuel for this
branch to be unreachable. -/
def get_next_host_loop (now starting_host_index : Nat) : Nat → RoundRobin → Addr × RoundRobin
  | 0, s => (s.hosts.getD s.current_host 0, s)
  | fuel + 1, s =>
    let val := s.hosts.getD s.current_host 0
    let s1 := increment_host_counter s
    let cycle_reached := starting_host_index = s1.current_host
    match get_host_cooldown_index val s1.cooldowns with
    | some i =>
      if cycle_reached then (val, increment_host_counter s1)
      else if (s1.cooldowns.getD i (0, 0)).2 < now then
        (val, { s1 with cooldowns := s1.cooldowns.eraseIdx i })
      else get_next_host_loop now starting_host_index fuel s1
    | none =>
      if cycle_reached then (val, increment_host_counter s1) else (val, s1)

/-- Method `get_next_host` (round_robin.rs lines 51–83): select `hosts[current_host]`,
advance the cursor, skip unexpired cooldowns, remove an expired entry on
encounter, and on a full cycle return the last candidate after one extra
cursor increment. -/
def get_next_host (now : Nat) (s : RoundRobin) : Addr × RoundRobin :=
  get_next_host_loop now s.current_host s.max_host s

/-- Method `report_error` (round_robin.rs lines 85–97): insert or refresh the
cooldown entry for `addr` with expiry `now + TARGET_DOWN_COOLDOWN`. -/
def report_error (now : Nat) (addr : Addr) (s : RoundRobin) : RoundRobin :=
  match get_host_cooldown_index addr s.cooldowns with
  | none =>
    { s with cooldowns := s.cooldowns ++ [(addr, now + TARGET_DOWN_COOLDOWN)] }
  | some i =>
    { s with cooldowns :=
        s.cooldowns.set i ((s.cooldowns.getD i (0, 0)).1, now + TARGET_DOWN_COOLDOWN) }

/-- Method `report_success` (round_robin.rs lines 99–106): drop the cooldown entry
for `addr` if present. -/
def report_success (addr : Addr) (s : RoundRobin) : RoundRobin :=
  match get_host_cooldown_index addr s.cooldowns with
  | none => s
  | some i => { s with cooldowns := s.cooldowns.eraseIdx i }

/-- Method `is_on_cooldown` (round_robin.rs lines 108–111): pure membership test on
the cooldown table, no expiration check. -/
def is_on_cooldown (addr : Addr) (s : RoundRobin) : Bool :=
  (get_host_cooldown_index addr s.cooldowns).isSome

/-- Running `K` successive `get_next_host` calls (all at clock `now`): the list of
returned endpoints in call order, and the final selector state. -/
def run_next (now : Nat) : Nat → RoundRobin → List Addr × RoundRobin
  | 0, s => ([], s)
  | k + 1, s =>
    let r := get_next_host now s
    let rest := run_next now k r.2
    (r.1 :: rest.1, rest.2)

/-- Host `a` has a cooldown entry and the first such entry has not expired at
`now` (the source removal test is `Instant::now() > expiry`). -/
def host_on_unexpired_cooldown (now : Nat) (cds : List (Addr × Nat)) (a : Addr) : Bool :=
  match get_host_cooldown_index a cds with
  | none => false
  | some i => decide (now ≤ (cds.getD i (0, 0)).2)

/-- Basic step lemma: incrementing a cursor below `max` is addition mod `max`. -/
theorem increment_host_counter_eq (s : RoundRobin) (h : s.current_host < s.max_host) :
    increment_host_counter s = { s with current_host := (s.current_host + 1) % s.max_host } := by
  unfold increment_host_counter
  by_cases hc : s.current_host + 1 ≥ s.max_host
  · have h1 : s.current_host + 1 = s.max_host := by omega
    simp [hc, h1, Nat.mod_self]
  · have h2 : (s.current_host + 1) % s.max_host = s.current_host + 1 :=
      Nat.mod_eq_of_lt (by omega)
    simp [hc, h2]

/-- Lemma: `get_host_cooldown_index` misses exactly when no entry carries the key. -/
theorem get_host_cooldown_index_eq_none_iff (addr : Addr) (l : List (Addr × Nat)) :
    get_host_cooldown_index addr l = none ↔ ∀ p ∈ l, p.1 ≠ addr := by
  induction l with
  | nil => simp [get_host_cooldown_index]
  | cons p rest ih =>
    by_cases hp : p.1 = addr
    · simp [get_host_cooldown_index, hp]
    · simp [get_host_cooldown_index, hp, Option.map_eq_none, ih]

/-- A hit of `get_host_cooldown_index` is in range and carries the key. -/
theorem get_host_cooldown_index_some (addr : Addr) (l : List (Addr × Nat)) (i : Nat)
    (h : get_host_cooldown_index addr l = some i) :
    i < l.length ∧ (l.getD i (0, 0)).1 = addr := by
  induction l generalizing i with
  | nil => simp [get_host_cooldown_index] at h
  | cons p rest ih =>
    by_cases hp : p.1 = addr
    · simp [get_host_cooldown_index, hp] at h
      subst h
      simpa using hp
    · simp [get_host_cooldown_index, hp] at h
      obtain ⟨j, hj, rfl⟩ := h
      obtain ⟨h1, h2⟩ := ih j hj
      exact ⟨by simpa using h1, by simpa using h2⟩

/-- Adding `0 < t < m` to a cursor below `m` moves it (mod `m`). -/
theorem add_mod_ne (c t m : Nat) (hc : c < m) (ht1 : 0 < t) (ht2 : t < m) :
    (c + t) % m ≠ c := by
  intro h
  have hmeq : (c + t) % m = (c + 0) % m := by
    simpa [Nat.mod_eq_of_lt hc] using h
  have ht0 : t ≡ 0 [MOD m] := Nat.ModEq.add_left_cancel' c hmeq
  have hdvd : m ∣ t := (Nat.modEq_zero_iff_dvd).1 ht0
  exact absurd (Nat.le_of_dvd ht1 hdvd) (by omega)

/-- C5: for a host set of size exactly one, every `get_next_host` call returns
that single host and leaves the selector state (cursor and cooldown table)
unchanged, regardless of the cooldown table and of the clock. -/
theorem single_host_degeneracy (a : Addr) (cds : List (Addr × Nat)) (now : Nat) :
    get_next_host now ⟨0, 1, [a], cds⟩ = (a, ⟨0, 1, [a], cds⟩) := by
  unfold get_next_host get_next_host_loop
  cases h : get_host_cooldown_index a cds with
  | some i => simp [increment_host_counter, h]
  | none => simp [increment_host_counter, h]

/-- C2: for a three-host set {A, B, C} and any cursor position, after
`report_error B` at time `t` (the only cooldown entry), the next two
`get_next_host` calls never return `B`, as long as the 30-second cooldown has
not elapsed at either call (`report_success` is never invoked). -/
theorem cooldown_honored (A B C : Addr) (c0 t now1 now2 : Nat)
    (hAB : A ≠ B) (hBC : B ≠ C) (hAC : A ≠ C) (hc : c0 < 3)
    (h1 : now1 ≤ t + TARGET_DOWN_COOLDOWN) (h2 : now2 ≤ t + TARGET_DOWN_COOLDOWN) :
    (get_next_host now1 (report_error t B ⟨c0, 3, [A, B, C], []⟩)).1 ≠ B
    ∧ (get_next_host now2
        (get_next_host now1 (report_error t B ⟨c0, 3, [A, B, C], []⟩)).2).1 ≠ B := by
  have hBA : ¬(B = A) := fun h => hAB h.symm
  have hCB : C ≠ B := fun h => hBC h.symm
  have hn1 : ¬(t + TARGET_DOWN_COOLDOWN < now1) := Nat.not_lt.mpr h1
  have hn2 : ¬(t + TARGET_DOWN_COOLDOWN < now2) := Nat.not_lt.mpr h2
  interval_cases c0 <;>
    simp [report_error, get_next_host, get_next_host_loop, get_host_cooldown_index,
      increment_host_counter, hBA, hBC, hn1, hn2, hAB, hCB]

/-- C2 witness: concrete hosts 1, 2, 3 with the error reported at time 0 and
both calls at time 0. -/
theorem cooldown_honored_witness :
    ((1 : Addr) ≠ 2 ∧ (2 : Addr) ≠ 3 ∧ (1 : Addr) ≠ 3 ∧ (0 : Nat) < 3
      ∧ (0 : Nat) ≤ 0 + TARGET_DOWN_COOLDOWN ∧ (0 : Nat) ≤ 0 + TARGET_DOWN_COOLDOWN)
    ∧ ((get_next_host 0 (report_error 0 2 ⟨0, 3, [1, 2, 3], []⟩)).1 ≠ 2
       ∧ (get_next_host 0
            (get_next_host 0 (report_error 0 2 ⟨0, 3, [1, 2, 3], []⟩)).2).1 ≠ 2) :=
  ⟨by decide,
   cooldown_honored 1 2 3 0 0 0 0 (by decide) (by decide) (by decide) (by decide)
     (by decide) (by decide)⟩

/-- C4 counterexample: hosts `[0, 1]`, cursor 0, and an expired cooldown entry
for host 1 (expiry 5, clock 10).  The first subsequent `get_next_host` call
returns host 0 without ever encountering host 1: the expired entry is not
removed and `is_on_cooldown 1` still holds, refuting the claim that the first
call past expiration removes the entry. -/
theorem lazy_expiration_counterexample :
    (5 : Nat) < 10
    ∧ get_next_host 10 ⟨0, 2, [0, 1], [(1, 5)]⟩
        = (0, ⟨1, 2, [0, 1], [(1, 5)]⟩)
    ∧ is_on_cooldown 1 (get_next_host 10 ⟨0, 2, [0, 1], [(1, 5)]⟩).2 = true := by
  decide

/-- C4 amended: if the cursor points at `B` (so the call encounters `B`
first), the host set has at least two entries, and `B` has an expired first
cooldown entry that is its only one, then `get_next_host` removes the entry,
returns `B`, and `is_on_cooldown B` is false afterwards. -/
theorem lazy_expiration_on_encounter (hs : List Addr) (cds : List (Addr × Nat))
    (B : Addr) (c0 i now : Nat)
    (hm : 2 ≤ hs.length) (hc : c0 < hs.length) (hB : hs.getD c0 0 = B)
    (hfind : get_host_cooldown_index B cds = some i)
    (hexp : (cds.getD i (0, 0)).2 < now)
    (huniq : ∀ p ∈ cds.eraseIdx i, p.1 ≠ B) :
    get_next_host now ⟨c0, hs.length, hs, cds⟩
      = (B, ⟨(c0 + 1) % hs.length, hs.length, hs, cds.eraseIdx i⟩)
    ∧ is_on_cooldown B (get_next_host now ⟨c0, hs.length, hs, cds⟩).2 = false := by
  obtain ⟨f, hf⟩ : ∃ f, hs.length = f + 1 := ⟨hs.length - 1, by omega⟩
  have hcyc : (c0 + 1) % (f + 1) ≠ c0 := by
    rw [← hf]
    exact add_mod_ne c0 1 hs.length hc (by omega) (by omega)
  have hinc : increment_host_counter ⟨c0, f + 1, hs, cds⟩
      = ⟨(c0 + 1) % (f + 1), f + 1, hs, cds⟩ := by
    simpa using increment_host_counter_eq ⟨c0, f + 1, hs, cds⟩ (show c0 < f + 1 by omega)
  have hnc : ¬(c0 = (c0 + 1) % (f + 1)) := fun h => hcyc h.symm
  have hstep :
      get_next_host now ⟨c0, hs.length, hs, cds⟩
        = (B, ⟨(c0 + 1) % hs.length, hs.length, hs, cds.eraseIdx i⟩) := by
    unfold get_next_host
    simp only [hf]
    unfold get_next_host_loop
    have hB2 : hs[c0]?.getD 0 = B := by simpa [List.getD_eq_getElem?_getD] using hB
    have hexp2 : (cds[i]?.getD (0, 0)).2 < now := by
      simpa [List.getD_eq_getElem?_getD] using hexp
    simp [hinc, hnc, hB2, hfind, hexp2]
    intro hcontra
    exact absurd (show (cds[i]?.getD 0).2 < now from hexp2) (by omega)
  refine ⟨hstep, ?_⟩
  rw [hstep]
  have hnone : get_host_cooldown_index B (cds.eraseIdx i) = none :=
    (get_host_cooldown_index_eq_none_iff _ _).2 huniq
  simp [is_on_cooldown, hnone]

/-- C4 amended witness: hosts `[7, 8]`, cursor 0 pointing at host 7 whose
cooldown (expiry 3) has expired at clock 9. -/
theorem lazy_expiration_on_encounter_witness :
    (2 ≤ ([7, 8] : List Addr).length ∧ (0 : Nat) < ([7, 8] : List Addr).length
      ∧ ([7, 8] : List Addr).getD 0 0 = 7
      ∧ get_host_cooldown_index 7 [(7, 3)] = some 0
      ∧ (([(7, 3)] : List (Addr × Nat)).getD 0 (0, 0)).2 < 9
      ∧ ∀ p ∈ ([(7, 3)] : List (Addr × Nat)).eraseIdx 0, p.1 ≠ 7)
    ∧ (get_next_host 9 ⟨0, ([7, 8] : List Addr).length, [7, 8], [(7, 3)]⟩
        = (7, ⟨(0 + 1) % ([7, 8] : List Addr).length, ([7, 8] : List Addr).length,
               [7, 8], ([(7, 3)] : List (Addr × Nat)).eraseIdx 0⟩)
       ∧ is_on_cooldown 7
          (get_next_host 9 ⟨0, ([7, 8] : List Addr).length, [7, 8], [(7, 3)]⟩).2 = false) :=
  ⟨by decide,
   lazy_expiration_on_encounter [7, 8] [(7, 3)] 7 0 0 9 (by decide) (by decide)
     (by decide) (by decide) (by decide) (by decide)⟩

/-- When every host is on an unexpired cooldown, the selection loop walks the
whole cycle: with `f` iterations of fuel left and the cursor at
`(c0 + (H - f)) % H`, it ends returning `hosts[(c0 + (H - 1)) % H]` with the
cursor at `(c0 + 1) % H` and the cooldown table untouched. -/
theorem get_next_host_loop_all_cooldown (now c0 : Nat) (hs : List Addr)
    (cds : List (Addr × Nat)) (hm : 2 ≤ hs.length) (hc : c0 < hs.length)
    (hall : ∀ a ∈ hs, host_on_unexpired_cooldown now cds a = true) :
    ∀ f, 1 ≤ f → f ≤ hs.length →
      get_next_host_loop now c0 f
          ⟨(c0 + (hs.length - f)) % hs.length, hs.length, hs, cds⟩
        = (hs.getD ((c0 + (hs.length - 1)) % hs.length) 0,
           ⟨(c0 + 1) % hs.length, hs.length, hs, cds⟩) := by
  intro f
  induction f with
  | zero => omega
  | succ f ih =>
    intro h1 h2
    have hx : (c0 + (hs.length - (f + 1))) % hs.length < hs.length :=
      Nat.mod_lt _ (by omega)
    have hval_mem : hs[(c0 + (hs.length - (f + 1))) % hs.length]?.getD 0 ∈ hs := by
      rw [List.getElem?_eq_getElem hx, Option.getD_some]
      exact List.getElem_mem hx
    have hcool2 := hall _ hval_mem
    unfold host_on_unexpired_cooldown at hcool2
    have hinc : increment_host_counter
        ⟨(c0 + (hs.length - (f + 1))) % hs.length, hs.length, hs, cds⟩
        = ⟨((c0 + (hs.length - (f + 1))) % hs.length + 1) % hs.length,
           hs.length, hs, cds⟩ := by
      simpa using increment_host_counter_eq
        ⟨(c0 + (hs.length - (f + 1))) % hs.length, hs.length, hs, cds⟩ hx
    have hx1 : ((c0 + (hs.length - (f + 1))) % hs.length + 1) % hs.length
        = (c0 + (hs.length - f)) % hs.length := by
      rw [Nat.mod_add_mod]
      congr 1
      omega
    cases hfd : get_host_cooldown_index
        (hs[(c0 + (hs.length - (f + 1))) % hs.length]?.getD 0) cds with
    | none =>
      rw [hfd] at hcool2
      simp at hcool2
    | some i =>
      rw [hfd] at hcool2
      have hle : now ≤ (cds[i]?.getD 0).2 := by
        simpa [List.getD_eq_getElem?_getD] using of_decide_eq_true hcool2
      rcases Nat.eq_zero_or_pos f with hf0 | hfpos
      · subst hf0
        have hcyc : (c0 + (hs.length - 0)) % hs.length = c0 := by
          have he : c0 + (hs.length - 0) = c0 + hs.length := by omega
          rw [he, Nat.add_mod_right, Nat.mod_eq_of_lt hc]
        have hinc2 : increment_host_counter ⟨c0, hs.length, hs, cds⟩
            = ⟨(c0 + 1) % hs.length, hs.length, hs, cds⟩ := by
          simpa using increment_host_counter_eq ⟨c0, hs.length, hs, cds⟩ hc
        unfold get_next_host_loop
        rw [hinc]
        simp only [hx1, hcyc]
        simp [hfd, hinc2, List.getD_eq_getElem?_getD]
      · have hne : ¬(c0 = (c0 + (hs.length - f)) % hs.length) := fun h =>
          add_mod_ne c0 (hs.length - f) hs.length hc (by omega) (by omega) h.symm
        have hnexp : ¬((cds[i]?.getD 0).2 < now) := by omega
        unfold get_next_host_loop
        rw [hinc]
        simp only [hx1]
        simp [hfd, hne, hnexp]
        simpa using ih (by omega) (by omega)

/-- C3 counterexample: hosts `[10, 20]`, cursor 0, both hosts on unexpired
cooldown at clock 50.  `get_next_host` returns host 20 — the endpoint one
before the original cursor position — not host 10, the endpoint at the
original cursor position as the claim states (the cursor does end one step
past its origin). -/
theorem last_resort_counterexample :
    get_next_host 50 ⟨0, 2, [10, 20], [(10, 100), (20, 100)]⟩
      = (20, ⟨1, 2, [10, 20], [(10, 100), (20, 100)]⟩)
    ∧ (20 : Addr) ≠ 10 ∧ ([10, 20] : List Addr).getD 0 0 = 10 := by
  decide

/-- C3 amended: with at least two hosts and every host on an unexpired
cooldown, `get_next_host` does not fail: it returns the endpoint at position
`(cursor + H − 1) % H` (one before the original cursor — the last candidate
of the full cycle), that endpoint is a member of the host set, the cursor
ends one step past its original position, and the cooldown table is
unchanged. -/
theorem last_resort_selection (hs : List Addr) (cds : List (Addr × Nat))
    (c0 now : Nat) (hm : 2 ≤ hs.length) (hc : c0 < hs.length)
    (hall : ∀ a ∈ hs, host_on_unexpired_cooldown now cds a = true) :
    get_next_host now ⟨c0, hs.length, hs, cds⟩
      = (hs.getD ((c0 + (hs.length - 1)) % hs.length) 0,
         ⟨(c0 + 1) % hs.length, hs.length, hs, cds⟩)
    ∧ hs.getD ((c0 + (hs.length - 1)) % hs.length) 0 ∈ hs := by
  have hx : (c0 + (hs.length - 1)) % hs.length < hs.length := Nat.mod_lt _ (by omega)
  constructor
  · have := get_next_host_loop_all_cooldown now c0 hs cds hm hc hall hs.length
      (by omega) (by omega)
    unfold get_next_host
    simpa [Nat.sub_self, Nat.mod_eq_of_lt hc] using this
  · rw [List.getD_eq_getElem hs 0 hx]
    exact List.getElem_mem hx

/-- C3 amended witness: hosts `[3, 4]` both on cooldown until 10, call at
clock 7 from cursor 0: host 4 (position 1 = (0 + 2 − 1) % 2) is returned and
the cursor ends at 1. -/
theorem last_resort_selection_witness :
    (2 ≤ ([3, 4] : List Addr).length ∧ (0 : Nat) < ([3, 4] : List Addr).length
      ∧ ∀ a ∈ ([3, 4] : List Addr),
          host_on_unexpired_cooldown 7 [(3, 10), (4, 10)] a = true)
    ∧ (get_next_host 7 ⟨0, ([3, 4] : List Addr).length, [3, 4], [(3, 10), (4, 10)]⟩
        = (([3, 4] : List Addr).getD
             ((0 + (([3, 4] : List Addr).length - 1)) % ([3, 4] : List Addr).length) 0,
           ⟨(0 + 1) % ([3, 4] : List Addr).length, ([3, 4] : List Addr).length,
            [3, 4], [(3, 10), (4, 10)]⟩)
       ∧ ([3, 4] : List Addr).getD
           ((0 + (([3, 4] : List Addr).length - 1)) % ([3, 4] : List Addr).length) 0
           ∈ ([3, 4] : List Addr)) :=
  ⟨by decide,
   last_resort_selection [3, 4] [(3, 10), (4, 10)] 0 7 (by decide) (by decide) (by decide)⟩

/-- With an empty cooldown table, one `get_next_host` call returns the host
under the cursor and advances the cursor by exactly one position (mod the
host count), leaving the table empty. -/
theorem get_next_host_empty (now c : Nat) (hs : List Addr) (hc : c < hs.length) :
    get_next_host now ⟨c, hs.length, hs, []⟩
      = (hs.getD c 0, ⟨(c + 1) % hs.length, hs.length, hs, []⟩) := by
  obtain ⟨f, hf⟩ : ∃ f, hs.length = f + 1 := ⟨hs.length - 1, by omega⟩
  have hinc : increment_host_counter ⟨c, f + 1, hs, []⟩
      = ⟨(c + 1) % (f + 1), f + 1, hs, []⟩ := by
    simpa using increment_host_counter_eq ⟨c, f + 1, hs, []⟩ (show c < f + 1 by omega)
  rcases Nat.eq_zero_or_pos f with hf0 | hfpos
  · subst hf0
    have hc0 : c = 0 := by omega
    subst hc0
    unfold get_next_host
    simp only [hf]
    unfold get_next_host_loop
    simp [hinc, get_host_cooldown_index, increment_host_counter]
  · have hne : ¬(c = (c + 1) % (f + 1)) := fun h =>
      add_mod_ne c 1 (f + 1) (by omega) (by omega) (by omega) h.symm
    unfold get_next_host
    simp only [hf]
    unfold get_next_host_loop
    simp [hinc, get_host_cooldown_index, hne]

/-- With an empty cooldown table, `k` successive calls return the cyclic
window of `k` hosts starting at the cursor, and leave the cursor advanced by
`k` (mod the host count). -/
theorem run_next_empty (now : Nat) (hs : List Addr) :
    ∀ (k c : Nat), c < hs.length →
      run_next now k ⟨c, hs.length, hs, []⟩
        = ((List.range k).map (fun j => hs.getD ((c + j) % hs.length) 0),
           ⟨(c + k) % hs.length, hs.length, hs, []⟩) := by
  intro k
  induction k with
  | zero =>
    intro c hc
    simp [run_next, Nat.mod_eq_of_lt hc]
  | succ k ih =>
    intro c hc
    have hm : 0 < hs.length := by omega
    have hstep := get_next_host_empty now c hs hc
    have hrec := ih ((c + 1) % hs.length) (Nat.mod_lt _ hm)
    unfold run_next
    rw [hstep]
    simp only [hrec, Prod.mk.injEq]
    constructor
    · rw [List.range_succ_eq_map, List.map_cons, List.map_map]
      congr 1
      · simp [Nat.mod_eq_of_lt hc]
      · congr 1
        funext j
        simp only [Function.comp]
        rw [Nat.mod_add_mod]
        have hj : c + 1 + j = c + Nat.succ j := by omega
        rw [hj]
    · rw [Nat.mod_add_mod]
      have hk : c + 1 + k = c + (k + 1) := by omega
      rw [hk]

/-- One full cyclic window starting anywhere is a rotation of the host list. -/
theorem cycle_map_eq_rotate (hs : List Addr) (c : Nat) (hc : c < hs.length) :
    (List.range hs.length).map (fun j => hs.getD ((c + j) % hs.length) 0)
      = hs.rotate c := by
  have hm : 0 < hs.length := by omega
  apply List.ext_getElem
  · simp
  · intro i hi1 hi2
    have hi : i < hs.length := by simpa using hi1
    have hx : (c + i) % hs.length < hs.length := Nat.mod_lt _ hm
    have hx2 : (i + c) % hs.length < hs.length := Nat.mod_lt _ hm
    have hrot := List.getElem_rotate hs c i (by simpa [List.length_rotate] using hi)
    simp only [List.getElem_map, List.getElem_range]
    rw [hrot, ← List.getD_eq_getElem hs 0 hx2]
    have hcm : c + i = i + c := Nat.add_comm c i
    rw [hcm]

/-- Each host of a duplicate-free host list appears exactly once in a full
cyclic window. -/
theorem count_cycle (hs : List Addr) (c a : Nat) (hnd : hs.Nodup) (ha : a ∈ hs)
    (hc : c < hs.length) :
    ((List.range hs.length).map (fun j => hs.getD ((c + j) % hs.length) 0)).count a
      = 1 := by
  rw [cycle_map_eq_rotate hs c hc, (List.rotate_perm hs c).count_eq]
  exact List.count_eq_one_of_mem hnd ha

/-- Counting over `q` full cycles plus a remainder window: each full cycle
contributes exactly one occurrence. -/
theorem count_cycles_add (hs : List Addr) (a : Nat) (hnd : hs.Nodup) (ha : a ∈ hs) :
    ∀ (q r c : Nat), c < hs.length →
      ((List.range (hs.length * q + r)).map
          (fun j => hs.getD ((c + j) % hs.length) 0)).count a
        = q + ((List.range r).map (fun j => hs.getD ((c + j) % hs.length) 0)).count a := by
  intro q
  induction q with
  | zero => intro r c hc; simp
  | succ q ih =>
    intro r c hc
    have hsplit : hs.length * (q + 1) + r = hs.length + (hs.length * q + r) := by ring
    rw [hsplit, List.range_add, List.map_append, List.count_append]
    rw [count_cycle hs c a hnd ha hc]
    rw [List.map_map]
    have hfun : ((fun j => hs.getD ((c + j) % hs.length) 0) ∘ (hs.length + ·))
        = fun j => hs.getD ((c + j) % hs.length) 0 := by
      funext j
      simp only [Function.comp]
      congr 1
      have : c + (hs.length + j) = hs.length + (c + j) := by ring
      rw [this, Nat.add_mod_left]
    rw [hfun, ih r c hc]
    ring

/-- A window shorter than the host list contains no duplicates. -/
theorem window_nodup (hs : List Addr) (hnd : hs.Nodup) (c r : Nat)
    (hc : c < hs.length) (hr : r ≤ hs.length) :
    ((List.range r).map (fun j => hs.getD ((c + j) % hs.length) 0)).Nodup := by
  have hm : 0 < hs.length := by omega
  apply List.Nodup.map_on _ (List.nodup_range r)
  intro x hx y hy hf
  simp only [List.mem_range] at hx hy
  have hxm : (c + x) % hs.length < hs.length := Nat.mod_lt _ hm
  have hym : (c + y) % hs.length < hs.length := Nat.mod_lt _ hm
  rw [List.getD_eq_getElem hs 0 hxm, List.getD_eq_getElem hs 0 hym] at hf
  have hidx : (c + x) % hs.length = (c + y) % hs.length :=
    (List.Nodup.getElem_inj_iff hnd).mp hf
  have hmx : Nat.ModEq hs.length x y := by
    have : Nat.ModEq hs.length (c + x) (c + y) := hidx
    exact Nat.ModEq.add_left_cancel' c this
  have : x % hs.length = y % hs.length := hmx
  rwa [Nat.mod_eq_of_lt (by omega), Nat.mod_eq_of_lt (by omega)] at this

/-- C1: round-robin fairness under no errors.  Starting from any cursor with
an empty cooldown table (no `report_error` ever), over `K ≥ H` successive
calls every host of a duplicate-free host set is returned either
`⌊K/H⌋` or `⌈K/H⌉ = (K + H − 1)/H` times, and the cursor advances by exactly
one position (mod `H`) on every single call. -/
theorem round_robin_fairness (hs : List Addr) (c0 K now : Nat)
    (hnd : hs.Nodup) (hc : c0 < hs.length) (hK : hs.length ≤ K) :
    (∀ a ∈ hs,
        (run_next now K ⟨c0, hs.length, hs, []⟩).1.count a = K / hs.length
        ∨ (run_next now K ⟨c0, hs.length, hs, []⟩).1.count a
            = (K + hs.length - 1) / hs.length)
    ∧ (∀ j, j < K →
        (run_next now (j + 1) ⟨c0, hs.length, hs, []⟩).2.current_host
          = ((run_next now j ⟨c0, hs.length, hs, []⟩).2.current_host + 1)
              % hs.length) := by
  have hm : 0 < hs.length := by omega
  constructor
  · intro a ha
    simp only [run_next_empty now hs K c0 hc]
    have hqr : hs.length * (K / hs.length) + K % hs.length = K :=
      Nat.div_add_mod K hs.length
    have hrlt : K % hs.length < hs.length := Nat.mod_lt _ hm
    have hcount : ((List.range K).map (fun j => hs.getD ((c0 + j) % hs.length) 0)).count a
        = K / hs.length
          + ((List.range (K % hs.length)).map
              (fun j => hs.getD ((c0 + j) % hs.length) 0)).count a := by
      conv_lhs => rw [← hqr]
      exact count_cycles_add hs a hnd ha (K / hs.length) (K % hs.length) c0 hc
    have hrem : ((List.range (K % hs.length)).map
        (fun j => hs.getD ((c0 + j) % hs.length) 0)).count a ≤ 1 :=
      List.nodup_iff_count_le_one.mp (window_nodup hs hnd c0 (K % hs.length) hc (by omega)) a
    rcases Nat.lt_or_ge (((List.range (K % hs.length)).map
        (fun j => hs.getD ((c0 + j) % hs.length) 0)).count a) 1 with hz | ho
    · left
      omega
    · right
      have h1 : ((List.range (K % hs.length)).map
          (fun j => hs.getD ((c0 + j) % hs.length) 0)).count a = 1 := by omega
      have hr0 : 0 < K % hs.length := by
        by_contra hr0
        have hrz : K % hs.length = 0 := by omega
        rw [hrz] at h1
        simp at h1
      have hprod : (hs.length * (K / hs.length) + hs.length)
          = hs.length * (K / hs.length + 1) := by ring
      have hceil : (K + hs.length - 1) / hs.length = K / hs.length + 1 := by
        have he : K + hs.length - 1
            = (K % hs.length - 1) + hs.length * (K / hs.length + 1) := by
          omega
        rw [he, Nat.add_mul_div_left _ _ hm, Nat.div_eq_of_lt (by omega)]
        omega
      omega
  · intro j hj
    rw [run_next_empty now hs j c0 hc, run_next_empty now hs (j + 1) c0 hc]
    simp only
    rw [Nat.mod_add_mod]
    have hjj : c0 + (j + 1) = c0 + j + 1 := by omega
    rw [hjj]

/-- C1 witness: hosts `[5, 9]`, cursor 0, three calls: counts are 2 = ⌈3/2⌉
and 1 = ⌊3/2⌋, cursor stepping 0 → 1 → 0 → 1. -/
theorem round_robin_fairness_witness :
    (([5, 9] : List Addr).Nodup ∧ (0 : Nat) < ([5, 9] : List Addr).length
      ∧ ([5, 9] : List Addr).length ≤ 3)
    ∧ ((∀ a ∈ ([5, 9] : List Addr),
          (run_next 0 3 ⟨0, ([5, 9] : List Addr).length, [5, 9], []⟩).1.count a
              = 3 / ([5, 9] : List Addr).length
          ∨ (run_next 0 3 ⟨0, ([5, 9] : List Addr).length, [5, 9], []⟩).1.count a
              = (3 + ([5, 9] : List Addr).length - 1) / ([5, 9] : List Addr).length)
       ∧ (∀ j, j < 3 →
          (run_next 0 (j + 1) ⟨0, ([5, 9] : List Addr).length, [5, 9], []⟩).2.current_host
            = ((run_next 0 j ⟨0, ([5, 9] : List Addr).length, [5, 9], []⟩).2.current_host
                + 1) % ([5, 9] : List Addr).length)) :=
  ⟨by decide, round_robin_fairness [5, 9] 0 3 0 (by decide) (by decide) (by decide)⟩

/-- Advancing the cursor never changes the host list. -/
theorem increment_host_counter_hosts (s : RoundRobin) :
    (increment_host_counter s).hosts = s.hosts := by
  unfold increment_host_counter
  split <;> rfl

/-- Advancing the cursor never changes `max_host`. -/
theorem increment_host_counter_max (s : RoundRobin) :
    (increment_host_counter s).max_host = s.max_host := by
  unfold increment_host_counter
  split <;> rfl

/-- Advancing the cursor never changes the cooldown table. -/
theorem increment_host_counter_cooldowns (s : RoundRobin) :
    (increment_host_counter s).cooldowns = s.cooldowns := by
  unfold increment_host_counter
  split <;> rfl

/-- The selection loop preserves hosts and `max_host`, and only ever shrinks
the cooldown table (an entry is only removed, never added or changed). -/
theorem get_next_host_loop_preserves (now st : Nat) :
    ∀ f s, (get_next_host_loop now st f s).2.hosts = s.hosts
      ∧ (get_next_host_loop now st f s).2.max_host = s.max_host
      ∧ ∀ p ∈ (get_next_host_loop now st f s).2.cooldowns, p ∈ s.cooldowns := by
  intro f
  induction f with
  | zero => exact fun s => ⟨rfl, rfl, fun p hp => hp⟩
  | succ f ih =>
    intro s
    simp only [get_next_host_loop]
    split
    · split
      · refine ⟨?_, ?_, ?_⟩
        · simp [increment_host_counter_hosts]
        · simp [increment_host_counter_max]
        · simp only [increment_host_counter_cooldowns]
          exact fun p hp => hp
      · split
        · refine ⟨?_, ?_, ?_⟩
          · simp [increment_host_counter_hosts]
          · simp [increment_host_counter_max]
          · simp only [increment_host_counter_cooldowns]
            exact fun p hp =>
              (List.eraseIdx_sublist s.cooldowns _).subset
                (by simpa [increment_host_counter_cooldowns] using hp)
        · obtain ⟨ha, hb, hsub⟩ := ih (increment_host_counter s)
          refine ⟨?_, ?_, ?_⟩
          · rw [ha, increment_host_counter_hosts]
          · rw [hb, increment_host_counter_max]
          · intro p hp
            have := hsub p hp
            rwa [increment_host_counter_cooldowns] at this
    · split
      · refine ⟨?_, ?_, ?_⟩
        · simp [increment_host_counter_hosts]
        · simp [increment_host_counter_max]
        · simp only [increment_host_counter_cooldowns]
          exact fun p hp => hp
      · refine ⟨?_, ?_, ?_⟩
        · simp [increment_host_counter_hosts]
        · simp [increment_host_counter_max]
        · simp only [increment_host_counter_cooldowns]
          exact fun p hp => hp

/-- C7 amended: the invariant "every cooldown key is a member of the host
set" is preserved by `get_next_host` (for every clock), by `report_success`
(for every address), and by `report_error` whenever the reported address is
itself in the host set.  (`is_on_cooldown` takes the state immutably and has
nothing to preserve.)  `report_error` on an address outside the host set
violates the invariant, see the counterexample. -/
theorem cooldown_key_invariant (s : RoundRobin) (now : Nat) (addr : Addr)
    (hinv : ∀ p ∈ s.cooldowns, p.1 ∈ s.hosts) :
    (∀ p ∈ (get_next_host now s).2.cooldowns, p.1 ∈ (get_next_host now s).2.hosts)
    ∧ (addr ∈ s.hosts →
        ∀ p ∈ (report_error now addr s).cooldowns, p.1 ∈ (report_error now addr s).hosts)
    ∧ (∀ p ∈ (report_success addr s).cooldowns, p.1 ∈ (report_success addr s).hosts) := by
  refine ⟨?_, ?_, ?_⟩
  · obtain ⟨hh, hm2, hsub⟩ :=
      get_next_host_loop_preserves now s.current_host s.max_host s
    unfold get_next_host
    rw [hh]
    exact fun p hp => hinv p (hsub p hp)
  · intro haddr
    unfold report_error
    cases hfd : get_host_cooldown_index addr s.cooldowns with
    | none =>
      intro p hp
      simp only [List.mem_append, List.mem_singleton] at hp
      rcases hp with hp | hp
      · exact hinv p hp
      · subst hp
        exact haddr
    | some i =>
      intro p hp
      simp only at hp
      rcases List.mem_or_eq_of_mem_set hp with hp2 | hp2
      · exact hinv p hp2
      · subst hp2
        obtain ⟨hlt, hkey⟩ := get_host_cooldown_index_some addr s.cooldowns i hfd
        have hkey2 : (s.cooldowns[i]?.getD 0).1 = addr := by
          simpa [List.getD_eq_getElem?_getD] using hkey
        simpa [hkey2] using haddr
  · unfold report_success
    cases hfd : get_host_cooldown_index addr s.cooldowns with
    | none => exact fun p hp => hinv p hp
    | some i =>
      exact fun p hp => hinv p ((List.eraseIdx_sublist s.cooldowns i).subset hp)

/-- C7 amended witness: state with hosts `[4, 5]`, one valid cooldown entry
for host 4; the error is reported against host 5, a member. -/
theorem cooldown_key_invariant_witness :
    (∀ p ∈ (⟨0, 2, [4, 5], [(4, 3)]⟩ : RoundRobin).cooldowns,
        p.1 ∈ (⟨0, 2, [4, 5], [(4, 3)]⟩ : RoundRobin).hosts)
    ∧ ((∀ p ∈ (get_next_host 9 ⟨0, 2, [4, 5], [(4, 3)]⟩).2.cooldowns,
          p.1 ∈ (get_next_host 9 ⟨0, 2, [4, 5], [(4, 3)]⟩).2.hosts)
       ∧ ((5 : Addr) ∈ (⟨0, 2, [4, 5], [(4, 3)]⟩ : RoundRobin).hosts →
           ∀ p ∈ (report_error 9 5 ⟨0, 2, [4, 5], [(4, 3)]⟩).cooldowns,
             p.1 ∈ (report_error 9 5 ⟨0, 2, [4, 5], [(4, 3)]⟩).hosts)
       ∧ (∀ p ∈ (report_success 5 ⟨0, 2, [4, 5], [(4, 3)]⟩).cooldowns,
           p.1 ∈ (report_success 5 ⟨0, 2, [4, 5], [(4, 3)]⟩).hosts)) :=
  ⟨by decide, cooldown_key_invariant ⟨0, 2, [4, 5], [(4, 3)]⟩ 9 5 (by decide)⟩

/-- C7 counterexample: starting from a state satisfying the cooldown-key
invariant (hosts `[0]`, no cooldowns), `report_error` applied to address 1 —
which is not in the host set — inserts the key 1, breaking the invariant.
The claim quantifies over every argument, so it fails. -/
theorem cooldown_key_invariant_counterexample :
    (∀ p ∈ (⟨0, 1, [0], []⟩ : RoundRobin).cooldowns, p.1 ∈ (⟨0, 1, [0], []⟩ : RoundRobin).hosts)
    ∧ ¬(∀ p ∈ (report_error 0 1 ⟨0, 1, [0], []⟩).cooldowns,
          p.1 ∈ (report_error 0 1 ⟨0, 1, [0], []⟩).hosts) := by
  decide

/-- State of a tunnel (`client.rs`, struct `TcpClient`).  The client socket
and the 4 KiB forwarding buffer carry no modelled state; the upstream socket
handle is modelled by presence (`Option Unit`).  Rust field names are kept;
`is_client_connected` is the spec's `client_alive`, `is_connecting` its
`upstream_connecting`, `is_connected` its `upstream_established`. -/
structure TcpClient where
  address : Addr
  target : Option Addr
  target_stream : Option Unit
  is_connected : Bool
  is_connecting : Bool
  is_client_connected : Bool
  already_connected_code : Nat
  last_connection_loss : Nat
  connection_started_time : Nat
  last_target : Option Addr
  last_target_error : Bool
deriving DecidableEq, Repr

/-- Constructor `TcpClient::new` (client.rs lines 31–61): fresh tunnel wrapping an
accepted client socket.  `code` is the OS "already connected" errno
(106 on Linux, 10056 on Windows); both timestamps start at `now`. -/
def TcpClient.new (addr : Addr) (now : Nat) (code : Nat) : TcpClient :=
  { address := addr
    target := none
    target_stream := none
    is_connected := false
    is_connecting := false
    is_client_connected := true
    already_connected_code := code
    last_connection_loss := now
    connection_started_time := now
    last_target := none
    last_target_error := false }

/-- Method `close_connection_to_target` (client.rs lines 219–244): shut down and
release the upstream socket; when previously established, stamp
`last_connection_loss`; record or erase the last-target error per
`target_errored`; clear both upstream flags. -/
def close_connection_to_target (now : Nat) (target_errored : Bool) (c : TcpClient) : TcpClient :=
  let c1 := if c.is_connected then { c with last_connection_loss := now } else c
  let c2 := if target_errored then
      { c1 with last_target := c1.target, last_target_error := true }
    else
      { c1 with last_target := none, last_target_error := false }
  { c2 with target := none, target_stream := none,
            is_connected := false, is_connecting := false }

/-- Method `close_connection` (client.rs lines 246–257): shut the client socket,
mark the client dead, and release the upstream without marking an error.
A no-op when the client is already closed. -/
def close_connection (now : Nat) (c : TcpClient) : TcpClient :=
  if c.is_client_connected then
    close_connection_to_target now false { c with is_client_connected := false }
  else c

/-- Method `set_connected` (client.rs lines 147–150). -/
def set_connected (c : TcpClient) : TcpClient :=
  { c with is_connected := true, is_connecting := false }

/-- Outcome of a non-blocking read (`stream.read`): `bytes n` for `Ok(n)`,
`wouldBlock` for `ErrorKind::WouldBlock`, `connErr` for any other error. -/
inductive ReadRes
  | bytes (n : Nat)
  | wouldBlock
  | connErr
deriving DecidableEq, Repr

/-- Outcome of a non-blocking write (`stream.write`): `written n` for
`Ok(n)`, `connErr` for any error. -/
inductive WriteRes
  | written (n : Nat)
  | connErr
deriving DecidableEq, Repr

/-- Second half of `process` (client.rs lines 188–216): read from the server
and forward to the client, carrying the `has_processed` flag accumulated by
the first half. -/
def process_read_server (now : Nat) (server_read : ReadRes) (client_write : WriteRes)
    (has_processed : Bool) (c : TcpClient) : TcpClient × Bool × Bool :=
  match server_read with
  | ReadRes.connErr => (close_connection_to_target now true c, false, has_processed)
  | ReadRes.wouldBlock => (c, true, has_processed)
  | ReadRes.bytes n =>
    if n > 0 then
      match client_write with
      | WriteRes.written _ => (c, true, true)
      | WriteRes.connErr => (close_connection now c, false, has_processed)
    else (close_connection_to_target now false c, false, has_processed)

/-- Method `process` (client.rs lines 156–217), the per-tick pump of an established
tunnel: one client→server pass then one server→client pass, with the four
I/O outcomes supplied as oracles.  Returns `none` for the `unwrap` panic when
no upstream socket is present; otherwise `some (state, success,
has_processed)` mirroring the `(bool, bool)` return. -/
def process (now : Nat) (client_read : ReadRes) (server_write : WriteRes)
    (server_read : ReadRes) (client_write : WriteRes) (c : TcpClient) :
    Option (TcpClient × Bool × Bool) :=
  match c.target_stream with
  | none => none
  | some _ =>
    match client_read with
    | ReadRes.connErr => some (close_connection now c, false, false)
    | ReadRes.wouldBlock => some (process_read_server now server_read client_write false c)
    | ReadRes.bytes n =>
      if n > 0 then
        match server_write with
        | WriteRes.written _ =>
          some (process_read_server now server_read client_write true c)
        | WriteRes.connErr => some (close_connection_to_target now true c, false, false)
      else some (close_connection now c, false, false)

/-- Outcome of the non-blocking `socket.connect` call (client.rs lines
122–144): immediate success, `WouldBlock`, `ErrorKind::Other` carrying a raw
OS error code, or any other error. -/
inductive ConnectRes
  | connOk
  | wouldBlock
  | otherErr (code : Nat)
  | connErr
deriving DecidableEq, Repr

/-- Result of `connect_to_target`: `panicked` for an `unwrap` failure,
`ioError c` for the `?`-propagated socket-creation error (state mutated by
the initial close is kept, as `self` is `&mut`), `ret c b` for `Ok(b)`. -/
inductive ConnectOutcome
  | panicked
  | ioError (c : TcpClient)
  | ret (c : TcpClient) (success : Bool)
deriving DecidableEq, Repr

/-- Lines 106–144 of `connect_to_target`: the part after the initialization
block, shared by both the fresh-attempt and already-connecting paths. -/
def connect_to_target_attempt (now total_timeout : Nat) (res : ConnectRes)
    (c : TcpClient) : ConnectOutcome :=
  if c.target_stream.isNone ∨ c.target.isNone then ConnectOutcome.panicked
  else if c.connection_started_time < now then
    ConnectOutcome.ret (close_connection_to_target now true c) false
  else if c.last_connection_loss + total_timeout < now then
    ConnectOutcome.ret (close_connection now c) false
  else
    match res with
    | ConnectRes.connOk => ConnectOutcome.ret (set_connected c) true
    | ConnectRes.wouldBlock => ConnectOutcome.ret c false
    | ConnectRes.otherErr code =>
      if code ≠ c.already_connected_code then ConnectOutcome.ret c false
      else ConnectOutcome.ret (set_connected c) true
    | ConnectRes.connErr =>
      ConnectOutcome.ret (close_connection_to_target now true c) false

/-- Method `connect_to_target` (client.rs lines 87–145): when not already
connecting (or with no upstream socket), first close the upstream without
error, then — if the non-blocking socket is created (`socket_created`) — set
`is_connecting`, record the target, and stamp the per-attempt deadline
`connection_started_time = now + timeout`; then run the deadline checks and
the `connect` call with outcome `res`. -/
def connect_to_target (now timeout total_timeout : Nat) (socket_created : Bool)
    (res : ConnectRes) (target : Addr) (c : TcpClient) : ConnectOutcome :=
  if !c.is_connecting || c.target_stream.isNone then
    let c1 := close_connection_to_target now false c
    if socket_created then
      connect_to_target_attempt now total_timeout res
        { c1 with is_connecting := true, target := some target,
                  target_stream := some (),
                  connection_started_time := now + timeout }
    else ConnectOutcome.ioError c1
  else connect_to_target_attempt now total_timeout res c

/-- Value of `usize::MAX` on a 64-bit target. -/
def USIZE_MAX : Nat := 2 ^ 64 - 1

/-- Closure `get_next_token` (balancer.rs lines 117–124): return the current
`next_token_id` as the token, then advance the counter, resetting it to 1
when it would reach `usize::MAX`. -/
def get_next_token (next_token_id : Nat) : Nat × Nat :=
  let token := next_token_id
  let id1 := next_token_id + 1
  if id1 ≥ USIZE_MAX then (token, 1) else (token, id1)

/-- The counter value before the `(k+1)`-th `get_next_token` call of a
worker thread; the initial value (balancer.rs line 115) is 0. -/
def next_token_id_after : Nat → Nat
  | 0 => 0
  | k + 1 => (get_next_token (next_token_id_after k)).2

/-- The token returned by the `(k+1)`-th `get_next_token` call (0-indexed:
`allocated_token 0` is the first token the worker hands out). -/
def allocated_token (k : Nat) : Nat :=
  (get_next_token (next_token_id_after k)).1

/-- The token returned by a call is the counter value at the call. -/
theorem get_next_token_fst (s : Nat) : (get_next_token s).1 = s := by
  by_cases h : s + 1 ≥ USIZE_MAX <;> simp [get_next_token, h]

/-- The successor counter value, with the wrap made explicit. -/
theorem get_next_token_snd (s : Nat) :
    (get_next_token s).2 = if s + 1 ≥ USIZE_MAX then 1 else s + 1 := by
  by_cases h : s + 1 ≥ USIZE_MAX <;> simp [get_next_token, h]

/-- After at least one allocation, the worker token counter stays in
`[1, usize::MAX)`: it is never 0 again and never reaches `usize::MAX`. -/
theorem next_token_id_bounds :
    ∀ k, 1 ≤ k → 1 ≤ next_token_id_after k ∧ next_token_id_after k < USIZE_MAX := by
  intro k
  induction k with
  | zero => omega
  | succ k ih =>
    intro _
    rcases Nat.eq_zero_or_pos k with h0 | hpos
    · subst h0
      show 1 ≤ (get_next_token (next_token_id_after 0)).2
        ∧ (get_next_token (next_token_id_after 0)).2 < USIZE_MAX
      norm_num [next_token_id_after, get_next_token, USIZE_MAX]
    · obtain ⟨h1, h2⟩ := ih hpos
      show 1 ≤ (get_next_token (next_token_id_after k)).2
        ∧ (get_next_token (next_token_id_after k)).2 < USIZE_MAX
      rw [get_next_token_snd]
      by_cases hw : next_token_id_after k + 1 ≥ USIZE_MAX
      · rw [if_pos hw]
        norm_num [USIZE_MAX]
      · rw [if_neg hw]
        omega

/-- C6 counterexample: `next_token_id` starts at 0 (balancer.rs line 115),
so the very first token the worker allocates is token 0, contradicting the
claim that every allocated token is nonzero. -/
theorem token_nonzero_counterexample : allocated_token 0 = 0 := by decide

/-- C6 amended: the first allocated token is 0, but every later one is
nonzero: from the second call on the counter stays in `[1, usize::MAX)`, it
advances by exactly one while below the wrap bound, and it wraps to 1 (never
0) when the increment would reach `usize::MAX`. -/
theorem token_allocation_nonzero (k : Nat) (hk : 1 ≤ k) :
    allocated_token k ≠ 0
    ∧ (∀ s, s + 1 < USIZE_MAX → (get_next_token s).2 = s + 1)
    ∧ (get_next_token (USIZE_MAX - 1)).2 = 1 := by
  refine ⟨?_, ?_, ?_⟩
  · obtain ⟨h1, h2⟩ := next_token_id_bounds k hk
    unfold allocated_token
    rw [get_next_token_fst]
    omega
  · intro s hs
    have hlt : ¬(s + 1 ≥ USIZE_MAX) := by omega
    unfold get_next_token
    simp [hlt]
  · norm_num [get_next_token, USIZE_MAX]

/-- C6 amended witness: the second allocated token is 1, nonzero. -/
theorem token_allocation_nonzero_witness :
    (1 ≤ 1)
    ∧ (allocated_token 1 ≠ 0
       ∧ (∀ s, s + 1 < USIZE_MAX → (get_next_token s).2 = s + 1)
       ∧ (get_next_token (USIZE_MAX - 1)).2 = 1) :=
  ⟨by decide, token_allocation_nonzero 1 (by decide)⟩

/-- A concrete established tunnel used as witness input: fresh client 42
(Linux errno 106) connected to upstream 9. -/
def demo_established : TcpClient :=
  { TcpClient.new 42 0 106 with
      is_connected := true, target := some 9, target_stream := some () }

/-- A concrete tunnel with a pending, not-yet-reported upstream error. -/
def demo_pending_error : TcpClient :=
  { TcpClient.new 42 0 106 with
      last_target := some 11, last_target_error := true }

/-- C8: zero-byte read semantics of the pump on an established tunnel.
A zero-byte read from the client runs `close_connection`: the client is
marked dead and the upstream is released (both flags cleared, socket
dropped).  A zero-byte read from the upstream (reached with the client side
idle, or after forwarding `n + 1` client bytes) runs
`close_connection_to_target` without marking an error: the client stays
alive and no last-target error is recorded. -/
theorem pump_zero_byte_reads (now n w : Nat) (sw : WriteRes) (sr : ReadRes)
    (cw : WriteRes) (c : TcpClient)
    (hcli : c.is_client_connected = true) (hest : c.is_connected = true)
    (hts : c.target_stream = some ()) :
    (process now (ReadRes.bytes 0) sw sr cw c
        = some (close_connection now c, false, false)
      ∧ (close_connection now c).is_client_connected = false
      ∧ (close_connection now c).is_connected = false
      ∧ (close_connection now c).is_connecting = false
      ∧ (close_connection now c).target_stream = none)
    ∧ (process now ReadRes.wouldBlock sw (ReadRes.bytes 0) cw c
        = some (close_connection_to_target now false c, false, false)
      ∧ process now (ReadRes.bytes (n + 1)) (WriteRes.written w) (ReadRes.bytes 0) cw c
        = some (close_connection_to_target now false c, false, true)
      ∧ (close_connection_to_target now false c).is_client_connected = true
      ∧ (close_connection_to_target now false c).is_connected = false
      ∧ (close_connection_to_target now false c).target_stream = none
      ∧ (close_connection_to_target now false c).last_target = none
      ∧ (close_connection_to_target now false c).last_target_error = false) := by
  refine ⟨⟨?_, ?_, ?_, ?_, ?_⟩, ⟨?_, ?_, ?_, ?_, ?_, ?_, ?_⟩⟩
  · simp [process, hts]
  · simp [close_connection, close_connection_to_target, hcli, hest]
  · simp [close_connection, close_connection_to_target, hcli, hest]
  · simp [close_connection, close_connection_to_target, hcli, hest]
  · simp [close_connection, close_connection_to_target, hcli, hest]
  · simp [process, process_read_server, hts]
  · simp [process, process_read_server, hts]
  · simp [close_connection_to_target, hcli, hest]
  · simp [close_connection_to_target, hest]
  · simp [close_connection_to_target, hest]
  · simp [close_connection_to_target, hest]
  · simp [close_connection_to_target, hest]

/-- C8 witness: the concrete established tunnel `demo_established` at
clock 3, with 4 + 1 client bytes and a 5-byte write in the forwarding case. -/
theorem pump_zero_byte_reads_witness :
    (demo_established.is_client_connected = true
      ∧ demo_established.is_connected = true
      ∧ demo_established.target_stream = some ())
    ∧ ((process 3 (ReadRes.bytes 0) (WriteRes.written 0) ReadRes.wouldBlock
          (WriteRes.written 0) demo_established
          = some (close_connection 3 demo_established, false, false)
        ∧ (close_connection 3 demo_established).is_client_connected = false
        ∧ (close_connection 3 demo_established).is_connected = false
        ∧ (close_connection 3 demo_established).is_connecting = false
        ∧ (close_connection 3 demo_established).target_stream = none)
       ∧ (process 3 ReadRes.wouldBlock (WriteRes.written 0) (ReadRes.bytes 0)
            (WriteRes.written 0) demo_established
            = some (close_connection_to_target 3 false demo_established, false, false)
          ∧ process 3 (ReadRes.bytes (4 + 1)) (WriteRes.written 5) (ReadRes.bytes 0)
              (WriteRes.written 0) demo_established
              = some (close_connection_to_target 3 false demo_established, false, true)
          ∧ (close_connection_to_target 3 false demo_established).is_client_connected
              = true
          ∧ (close_connection_to_target 3 false demo_established).is_connected = false
          ∧ (close_connection_to_target 3 false demo_established).target_stream = none
          ∧ (close_connection_to_target 3 false demo_established).last_target = none
          ∧ (close_connection_to_target 3 false demo_established).last_target_error
              = false)) :=
  ⟨by decide,
   pump_zero_byte_reads 3 4 5 (WriteRes.written 0) ReadRes.wouldBlock
     (WriteRes.written 0) demo_established (by decide) (by decide) (by decide)⟩

/-- A fresh connect attempt (not already connecting, not established, total
deadline not yet expired, socket created, `connect` returned would-block)
returns `Ok(false)` with the state produced by the non-error close plus the
new-attempt fields: target recorded, `is_connecting` set, and the
per-attempt deadline stamped at `now + timeout`. -/
theorem connect_to_target_wouldblock (c : TcpClient)
    (now timeout total_timeout : Nat) (e : Addr)
    (hnc : c.is_connecting = false) (hce : c.is_connected = false)
    (htt : ¬(c.last_connection_loss + total_timeout < now)) :
    connect_to_target now timeout total_timeout true ConnectRes.wouldBlock e c
      = ConnectOutcome.ret
          { close_connection_to_target now false c with
              is_connecting := true, target := some e, target_stream := some (),
              connection_started_time := now + timeout } false := by
  have hna : ¬(now + timeout < now) := by omega
  have hlcl : (close_connection_to_target now false c).last_connection_loss
      = c.last_connection_loss := by
    simp [close_connection_to_target, hce]
  simp [connect_to_target, connect_to_target_attempt, hnc, hna, hlcl, htt]

/-- C9 counterexample: a fresh tunnel (made by `TcpClient::new` at time 0),
`connect_to_target` called at `now = 5` with the 400 ms per-attempt timeout:
the socket is created and the attempt is in progress, yet
`connection_started_time` is stamped 405 = now + timeout, not the call time
5 the claim requires. -/
theorem begin_connect_stamp_counterexample :
    connect_to_target 5 400 4000 true ConnectRes.wouldBlock 7 (TcpClient.new 42 0 106)
      = ConnectOutcome.ret
          { close_connection_to_target 5 false (TcpClient.new 42 0 106) with
              is_connecting := true, target := some 7, target_stream := some (),
              connection_started_time := 5 + 400 } false
    ∧ ({ close_connection_to_target 5 false (TcpClient.new 42 0 106) with
          is_connecting := true, target := some 7, target_stream := some (),
          connection_started_time := 5 + 400 } : TcpClient).connection_started_time
        ≠ 5 := by
  decide

/-- C9 amended: for a tunnel not in the Connecting state and not
established, with the overall deadline not yet expired, a
`connect_to_target e` call that creates the socket and whose `connect`
reports would-block returns with `target = e`, `is_connecting = true`, and
`connection_started_time = now + timeout` — the per-attempt deadline, i.e.
the call time plus the timeout, not the call time itself. -/
theorem begin_connect_postcondition (c : TcpClient)
    (now timeout total_timeout : Nat) (e : Addr)
    (hnc : c.is_connecting = false) (hce : c.is_connected = false)
    (htt : ¬(c.last_connection_loss + total_timeout < now)) :
    ∃ c2, connect_to_target now timeout total_timeout true ConnectRes.wouldBlock e c
        = ConnectOutcome.ret c2 false
      ∧ c2.target = some e
      ∧ c2.is_connecting = true
      ∧ c2.connection_started_time = now + timeout := by
  exact ⟨_, connect_to_target_wouldblock c now timeout total_timeout e hnc hce htt,
    rfl, rfl, rfl⟩

/-- C9 amended witness: the concrete fresh tunnel from the counterexample. -/
theorem begin_connect_postcondition_witness :
    ((TcpClient.new 42 0 106).is_connecting = false
      ∧ (TcpClient.new 42 0 106).is_connected = false
      ∧ ¬((TcpClient.new 42 0 106).last_connection_loss + 4000 < 5))
    ∧ (∃ c2, connect_to_target 5 400 4000 true ConnectRes.wouldBlock 7
          (TcpClient.new 42 0 106)
          = ConnectOutcome.ret c2 false
        ∧ c2.target = some 7
        ∧ c2.is_connecting = true
        ∧ c2.connection_started_time = 5 + 400) :=
  ⟨by decide,
   begin_connect_postcondition (TcpClient.new 42 0 106) 5 400 4000 7
     (by decide) (by decide) (by decide)⟩

/-- C10: for every tunnel state and clock, the non-error upstream close
(`close_connection_to_target` with `target_errored = false`) resets
`last_target` to `None` and `last_target_error` to `false`, erasing any
pending not-yet-reported error; and `connect_to_target` performs exactly
such a close first when starting a fresh attempt, so the state it returns
while the new connect is in progress carries no error record. -/
theorem nonerror_close_clears_error (c : TcpClient)
    (now timeout total_timeout : Nat) (e : Addr)
    (hnc : c.is_connecting = false) (hce : c.is_connected = false)
    (htt : ¬(c.last_connection_loss + total_timeout < now)) :
    (∀ (d : TcpClient) (t : Nat),
        (close_connection_to_target t false d).last_target = none
        ∧ (close_connection_to_target t false d).last_target_error = false)
    ∧ (∃ c2, connect_to_target now timeout total_timeout true ConnectRes.wouldBlock e c
          = ConnectOutcome.ret c2 false
        ∧ c2.last_target = none
        ∧ c2.last_target_error = false) := by
  refine ⟨fun d t => ⟨rfl, rfl⟩, ?_⟩
  exact ⟨_, connect_to_target_wouldblock c now timeout total_timeout e hnc hce htt,
    rfl, rfl⟩

/-- C10 witness: the tunnel `demo_pending_error` carries a pending error
record (`last_target = some 11`, `last_target_error = true`); the fresh
attempt at clock 5 clears it. -/
theorem nonerror_close_clears_error_witness :
    (demo_pending_error.is_connecting = false
      ∧ demo_pending_error.is_connected = false
      ∧ ¬(demo_pending_error.last_connection_loss + 4000 < 5))
    ∧ ((∀ (d : TcpClient) (t : Nat),
          (close_connection_to_target t false d).last_target = none
          ∧ (close_connection_to_target t false d).last_target_error = false)
       ∧ (∃ c2, connect_to_target 5 400 4000 true ConnectRes.wouldBlock 7
            demo_pending_error
            = ConnectOutcome.ret c2 false
          ∧ c2.last_target = none
          ∧ c2.last_target_error = false)) :=
  ⟨by decide,
   nonerror_close_clears_error demo_pending_error 5 400 4000 7
     (by decide) (by decide) (by decide)⟩

end LB
